import Mathlib

/-!
Verification of the mcm repository (minimal configuration manager).

The Go and C++ sources are shallowly embedded: byte strings become
`List Nat` (each entry a byte value), machine integers become `Nat`
with explicit `% 2 ^ w` where overflow matters, fallible operations
return `Except`/`Option`, and stateful interfaces become explicit
state passing.
-/

/-- A byte string, as a Go `string`/`[]byte`: a list of byte values. -/
abbrev Bytes := List Nat

/-! ## shlib shell quoting (`shellQuote`, `isShellSafe`) -/

/-- Function `isShellSafe` from package shlib: bytes that need no quoting, namely
`A`-`Z` (65-90), `a`-`z` (97-122), `0`-`9` (48-57), `-` (45), `_` (95),
`/` (47). -/
def isShellSafe (b : Nat) : Bool :=
  (65 ≤ b && b ≤ 90) || (97 ≤ b && b ≤ 122) || (48 ≤ b && b ≤ 57) ||
    b == 45 || b == 95 || b == 47

/-- The byte loop of `shellQuote`: each single quote (byte 39) becomes
the four bytes `'` `\` `'` `'` (39, 92, 39, 39); every other byte is
copied unchanged. -/
def shellQuoteBody : Bytes → Bytes
  | [] => []
  | b :: rest =>
    if b == 39 then 39 :: 92 :: 39 :: 39 :: shellQuoteBody rest
    else b :: shellQuoteBody rest

/-- Function `shellQuote` from package shlib: the empty string becomes two quote bytes
(bytes 39 39); a string of only shell-safe bytes is returned unchanged;
anything else is wrapped in single quotes with embedded single quotes
replaced by the escape sequence produced by `shellQuoteBody`. -/
def shellQuote (s : Bytes) : Bytes :=
  if s = [] then [39, 39]
  else if s.all isShellSafe then s
  else 39 :: (shellQuoteBody s ++ [39])

/-- Evaluator for a single bash word, written from the POSIX shell
quoting rules (the specification side of the round-trip claim, not a
repository function). The Bool argument is true while inside single
quotes. Outside quotes: a single quote (39) opens quoting, a backslash
(92) makes the following byte literal, and unquoted whitespace
(9, 10, 32) means the input is not one word, so it is rejected. Inside
single quotes every byte except the closing quote is literal.
`bashWordEval w false = some s` means the word `w` evaluates to exactly
the byte string `s`. -/
def bashWordEval : Bytes → Bool → Option Bytes
  | [], false => some []
  | [], true => none
  | b :: rest, true =>
    if b == 39 then bashWordEval rest false
    else (bashWordEval rest true).map (b :: ·)
  | b :: rest, false =>
    if b == 39 then bashWordEval rest true
    else if b == 92 then
      match rest with
      | [] => none
      | c :: rest2 => (bashWordEval rest2 false).map (c :: ·)
    else if b == 9 || b == 10 || b == 32 then none
    else (bashWordEval rest false).map (b :: ·)

/-! ## luacat idHash (SHA-1 based, from luacat.c++) -/

/-- 32-bit left rotation, as used by SHA-1. -/
def rotl32 (n x : Nat) : Nat := ((x <<< n) ||| (x >>> (32 - n))) % 2 ^ 32

/-- SHA-1 round constants. -/
def sha1K (t : Nat) : Nat :=
  if t < 20 then 0x5A827999 else if t < 40 then 0x6ED9EBA1
  else if t < 60 then 0x8F1BBCDC else 0xCA62C1D6

/-- SHA-1 round functions (choose, parity, majority). -/
def sha1F (t b c d : Nat) : Nat :=
  if t < 20 then (b &&& c) ||| ((b ^^^ (2 ^ 32 - 1)) &&& d)
  else if t < 40 then b ^^^ c ^^^ d
  else if t < 60 then (b &&& c) ||| (b &&& d) ||| (c &&& d)
  else b ^^^ c ^^^ d

/-- Assemble a 64-byte block into sixteen big-endian 32-bit words. -/
def sha1Words : Bytes → List Nat
  | b0 :: b1 :: b2 :: b3 :: rest =>
    (((b0 % 256) <<< 24) ||| ((b1 % 256) <<< 16) ||| ((b2 % 256) <<< 8) ||| (b3 % 256)) ::
      sha1Words rest
  | _ => []

/-- Extend the sixteen message words to the 80-word SHA-1 schedule. -/
def sha1Extend : Nat → List Nat → List Nat
  | 0, ws => ws
  | n + 1, ws =>
    sha1Extend n (ws ++ [rotl32 1 ((ws.getD (ws.length - 3) 0) ^^^ (ws.getD (ws.length - 8) 0) ^^^
      (ws.getD (ws.length - 14) 0) ^^^ (ws.getD (ws.length - 16) 0))])

/-- The five 32-bit working registers of SHA-1. -/
structure Sha1State where
  a : Nat
  b : Nat
  c : Nat
  d : Nat
  e : Nat

/-- One SHA-1 round, taking a pair of round index and schedule word. -/
def sha1Round (s : Sha1State) (tw : Nat × Nat) : Sha1State :=
  ⟨(rotl32 5 s.a + sha1F tw.1 s.b s.c s.d + s.e + sha1K tw.1 + tw.2) % 2 ^ 32,
    s.a, rotl32 30 s.b, s.c, s.d⟩

/-- Process one 64-byte block. -/
def sha1Block (h : Sha1State) (block : Bytes) : Sha1State :=
  let ws := sha1Extend 64 (sha1Words block)
  let f := ((List.range 80).zip ws).foldl sha1Round h
  ⟨(h.a + f.a) % 2 ^ 32, (h.b + f.b) % 2 ^ 32, (h.c + f.c) % 2 ^ 32,
    (h.d + f.d) % 2 ^ 32, (h.e + f.e) % 2 ^ 32⟩

/-- Big-endian 8-byte encoding of the SHA-1 message bit length. -/
def beBytes8 (n : Nat) : Bytes :=
  [(n >>> 56) % 256, (n >>> 48) % 256, (n >>> 40) % 256, (n >>> 32) % 256,
   (n >>> 24) % 256, (n >>> 16) % 256, (n >>> 8) % 256, n % 256]

/-- SHA-1 padding: append the 0x80 byte, zeros, and the bit length, so
the total length is a multiple of 64. -/
def sha1Pad (m : Bytes) : Bytes :=
  m ++ 128 :: (List.replicate ((119 - m.length % 64) % 64) 0 ++ beBytes8 (8 * m.length))

/-- Big-endian 4-byte encoding of a 32-bit word. -/
def word32Bytes (h : Nat) : Bytes :=
  [(h >>> 24) % 256, (h >>> 16) % 256, (h >>> 8) % 256, h % 256]

/-- The SHA-1 digest of a byte string: twenty bytes. This models the
OpenSSL bindings `SHA1_Init`/`SHA1_Update`/`SHA1_Final` used by
luacat's `idHash`. Validated against the standard test vectors. -/
def sha1 (m : Bytes) : Bytes :=
  let p := sha1Pad m
  let f := (List.range (p.length / 64)).foldl
    (fun s i => sha1Block s ((p.drop (64 * i)).take 64))
    ⟨0x67452301, 0xEFCDAB89, 0x98BADCFE, 0x10325476, 0xC3D2E1F0⟩
  word32Bytes f.a ++ word32Bytes f.b ++ word32Bytes f.c ++ word32Bytes f.d ++ word32Bytes f.e

/-- The bytes of the tag string prepended by `idHash`
(`idHashPrefix` in luacat.c++, the text "mcm-luacat ID: "). -/
def idHashTag : Bytes := [109, 99, 109, 45, 108, 117, 97, 99, 97, 116, 32, 73, 68, 58, 32]

/-- Function `idHash` from luacat.c++: SHA-1 of the tag followed by the
name; the result combines the first eight digest bytes little-endian
into a 64-bit value and ORs in the constant 1. -/
def idHash (s : Bytes) : Nat :=
  let h := sha1 (idHashTag ++ s)
  1 ||| h.getD 0 0 ||| (h.getD 1 0 <<< 8) ||| (h.getD 2 0 <<< 16) ||| (h.getD 3 0 <<< 24) |||
    (h.getD 4 0 <<< 32) ||| (h.getD 5 0 <<< 40) ||| (h.getD 6 0 <<< 48) ||| (h.getD 7 0 <<< 56)

/-- In `resourcefunc`, a resource named by a plain string gets the id
`idHash` of that string (the `res.setId(idHash(comment))` branch). -/
def resourceIdOfName (name : Bytes) : Nat := idHash name

/-- In `resourcefunc`, a dependency given as a plain string is stored as
the id `idHash` of that string (the `depList.set(i-1, idHash(...))`
branch). -/
def depIdOfName (name : Bytes) : Nat := idHash name

/-! ## internal/system interface and the simulated backend (exec.go) -/

/-- File metadata as returned by lstat (os.FileInfo). -/
structure FileInfo where
  mode : Nat
  size : Nat
  uid : Nat
  gid : Nat
deriving DecidableEq

/-- System-level errors: os.ErrNotExist, an os.PathError built from
os.ErrExist with an operation and a path, cancellation, or any other
error (tagged by a code). -/
inductive SysErr where
  | notExist : SysErr
  | exist (op : Bytes) (path : Bytes) : SysErr
  | canceled : SysErr
  | other (code : Nat) : SysErr
deriving DecidableEq

/-- The live system (system.Local), abstracted over a host-state type:
reads are functions of the host state; the simulated backend only ever
calls these read operations of it. -/
structure LocalSys (σ : Type) where
  lstat : σ → Bytes → Except SysErr FileInfo
  readlink : σ → Bytes → Except SysErr Bytes
  ownerInfo : FileInfo → Except SysErr (Nat × Nat)
  lookupUser : Bytes → Except SysErr Nat
  lookupGroup : Bytes → Except SysErr Nat
  readFileBytes : σ → Bytes → Except SysErr Bytes

/-- The readOnlyFile handle of exec.go: the opened live file (its bytes
and the current position) plus the wrote flag. -/
structure ReadOnlyFile where
  content : Bytes
  pos : Nat
  wrote : Bool
deriving DecidableEq

/-- readOnlyFile.Read: fails once a simulated write happened, otherwise
reads from the live file at the current position. -/
def roRead (f : ReadOnlyFile) (n : Nat) : Except String Bytes × ReadOnlyFile :=
  if f.wrote then (.error "read after simulated write", f)
  else
    let bs := (f.content.drop f.pos).take n
    (.ok bs, { f with pos := f.pos + bs.length })

/-- readOnlyFile.Write: records that a write happened, reports all
bytes as written, touches nothing else. -/
def roWrite (f : ReadOnlyFile) (p : Bytes) : (Nat × Except String Unit) × ReadOnlyFile :=
  ((p.length, .ok ()), { f with wrote := true })

/-- readOnlyFile.Seek: fails once a simulated write happened, otherwise
moves the position of the live file (whence 0 = start, 1 = current,
2 = end). -/
def roSeek (f : ReadOnlyFile) (offset : Int) (whence : Nat) :
    Except String Int × ReadOnlyFile :=
  if f.wrote then (.error "seek after simulated write", f)
  else
    let newPos : Int :=
      if whence = 0 then offset
      else if whence = 1 then (f.pos : Int) + offset
      else (f.content.length : Int) + offset
    (.ok newPos, { f with pos := newPos.toNat })

/-- readOnlyFile.Truncate: records that a write happened and reports
success without touching the live file. -/
def roTruncate (f : ReadOnlyFile) (_size : Nat) : Except String Unit × ReadOnlyFile :=
  (.ok (), { f with wrote := true })

/-- The operations available on a readOnlyFile handle. -/
inductive FileOp where
  | read (n : Nat)
  | write (p : Bytes)
  | seek (offset : Int) (whence : Nat)
  | truncate (size : Nat)

/-- Whether a handle operation is a (simulated) write. -/
def isWriteOp : FileOp → Bool
  | .write _ => true
  | .truncate _ => true
  | _ => false

/-- Apply one handle operation, keeping the resulting handle state. -/
def roStep (f : ReadOnlyFile) : FileOp → ReadOnlyFile
  | .read n => (roRead f n).2
  | .write p => (roWrite f p).2
  | .seek o w => (roSeek f o w).2
  | .truncate n => (roTruncate f n).2

/-- Apply a sequence of handle operations. -/
def roRun (f : ReadOnlyFile) (ops : List FileOp) : ReadOnlyFile :=
  ops.foldl roStep f

/-- The single writer the simulated CreateFile can return
(discardWriter in exec.go). -/
inductive SimWriter where
  | discard
deriving DecidableEq

/-- discardWriter.Write from exec.go: reports all bytes written, keeps
none of them. -/
def discardWrite (p : Bytes) : Nat × Except String Unit := (p.length, .ok ())

/-- The bytes of the operation name "open" used in the PathError built
by the simulated CreateFile. -/
def openOpName : Bytes := [111, 112, 101, 110]

/-- simulatedSystem.Lstat: delegate to the live system, no mutation. -/
def simLstat {σ : Type} (L : LocalSys σ) (s : σ) (path : Bytes) :
    Except SysErr FileInfo × σ := (L.lstat s path, s)

/-- simulatedSystem.Readlink: delegate to the live system. -/
def simReadlink {σ : Type} (L : LocalSys σ) (s : σ) (path : Bytes) :
    Except SysErr Bytes × σ := (L.readlink s path, s)

/-- simulatedSystem.OwnerInfo: delegate to the live system. -/
def simOwnerInfo {σ : Type} (L : LocalSys σ) (s : σ) (info : FileInfo) :
    Except SysErr (Nat × Nat) × σ := (L.ownerInfo info, s)

/-- simulatedSystem.LookupUser: delegate to the live system. -/
def simLookupUser {σ : Type} (L : LocalSys σ) (s : σ) (name : Bytes) :
    Except SysErr Nat × σ := (L.lookupUser name, s)

/-- simulatedSystem.LookupGroup: delegate to the live system. -/
def simLookupGroup {σ : Type} (L : LocalSys σ) (s : σ) (name : Bytes) :
    Except SysErr Nat × σ := (L.lookupGroup name, s)

/-- simulatedSystem.Mkdir: unconditional success, no effect. -/
def simMkdir {σ : Type} (s : σ) (_path : Bytes) (_mode : Nat) :
    Except SysErr Unit × σ := (.ok (), s)

/-- simulatedSystem.Remove: unconditional success, no effect. -/
def simRemove {σ : Type} (s : σ) (_path : Bytes) :
    Except SysErr Unit × σ := (.ok (), s)

/-- simulatedSystem.Symlink: unconditional success, no effect. -/
def simSymlink {σ : Type} (s : σ) (_oldname _newname : Bytes) :
    Except SysErr Unit × σ := (.ok (), s)

/-- simulatedSystem.Chmod: unconditional success, no effect. -/
def simChmod {σ : Type} (s : σ) (_path : Bytes) (_mode : Nat) :
    Except SysErr Unit × σ := (.ok (), s)

/-- simulatedSystem.Chown: unconditional success, no effect. -/
def simChown {σ : Type} (s : σ) (_path : Bytes) (_uid _gid : Nat) :
    Except SysErr Unit × σ := (.ok (), s)

/-- simulatedSystem.Run: returns nil output and nil error, no effect. -/
def simRun {σ : Type} (s : σ) (_args : List Bytes) :
    Except SysErr Bytes × σ := (.ok [], s)

/-- simulatedSystem.CreateFile: error if lstat finds the path (an
os.PathError wrapping os.ErrExist) or fails with anything other than
not-found; otherwise the discarding writer. Never mutates the host. -/
def simCreateFile {σ : Type} (L : LocalSys σ) (s : σ) (path : Bytes) (_mode : Nat) :
    Except SysErr SimWriter × σ :=
  match L.lstat s path with
  | .ok _ => (.error (.exist openOpName path), s)
  | .error .notExist => (.ok .discard, s)
  | .error e => (.error e, s)

/-- simulatedSystem.OpenFile: open the live file (a read) and wrap it
in a readOnlyFile handle with the wrote flag clear. -/
def simOpenFile {σ : Type} (L : LocalSys σ) (s : σ) (path : Bytes) :
    Except SysErr ReadOnlyFile × σ :=
  match L.readFileBytes s path with
  | .error e => (.error e, s)
  | .ok content => (.ok ⟨content, 0, false⟩, s)

/-- One invocation of the simulated backend. -/
inductive SimOp where
  | lstat (path : Bytes)
  | readlink (path : Bytes)
  | ownerInfo (info : FileInfo)
  | lookupUser (name : Bytes)
  | lookupGroup (name : Bytes)
  | mkdir (path : Bytes) (mode : Nat)
  | remove (path : Bytes)
  | symlink (oldname newname : Bytes)
  | chmod (path : Bytes) (mode : Nat)
  | chown (path : Bytes) (uid gid : Nat)
  | createFile (path : Bytes) (mode : Nat)
  | openFile (path : Bytes)
  | runCmd (args : List Bytes)

/-- The host state left by one simulated-backend call. -/
def simStep {σ : Type} (L : LocalSys σ) (s : σ) : SimOp → σ
  | .lstat p => (simLstat L s p).2
  | .readlink p => (simReadlink L s p).2
  | .ownerInfo i => (simOwnerInfo L s i).2
  | .lookupUser n => (simLookupUser L s n).2
  | .lookupGroup n => (simLookupGroup L s n).2
  | .mkdir p m => (simMkdir s p m).2
  | .remove p => (simRemove s p).2
  | .symlink o n => (simSymlink s o n).2
  | .chmod p m => (simChmod s p m).2
  | .chown p u g => (simChown s p u g).2
  | .createFile p m => (simCreateFile L s p m).2
  | .openFile p => (simOpenFile L s p).2
  | .runCmd a => (simRun s a).2

/-- The host state left by a sequence of simulated-backend calls. -/
def simApply {σ : Type} (L : LocalSys σ) (ops : List SimOp) (s : σ) : σ :=
  ops.foldl (simStep L) s

/-- A small three-path host fixture: path [1] exists, lstat on path [2]
fails with an error other than not-found, path [3] does not exist. -/
def fixtureLocal : LocalSys Unit where
  lstat := fun _ p =>
    if p = [1] then .ok ⟨420, 0, 0, 0⟩
    else if p = [2] then .error (.other 5)
    else .error .notExist
  readlink := fun _ _ => .error .notExist
  ownerInfo := fun _ => .ok (0, 0)
  lookupUser := fun _ => .ok 0
  lookupGroup := fun _ => .ok 0
  readFileBytes := fun _ _ => .error .notExist

/-! ## sysLogger, the logging wrapper (exec.go) -/

/-- An underlying system for sysLogger to wrap, abstracted over the
host-state type and the writer type CreateFile returns: mutations
transform the host state, reads do not. -/
structure WrappedSys (σ ω : Type) where
  mkdir : σ → Bytes → Nat → Except SysErr Unit × σ
  remove : σ → Bytes → Except SysErr Unit × σ
  symlink : σ → Bytes → Bytes → Except SysErr Unit × σ
  chmod : σ → Bytes → Nat → Except SysErr Unit × σ
  chown : σ → Bytes → Nat → Nat → Except SysErr Unit × σ
  createFile : σ → Bytes → Nat → Except SysErr ω × σ
  runCmd : σ → List Bytes → Except SysErr Bytes × σ
  lstat : σ → Bytes → Except SysErr FileInfo
  readlink : σ → Bytes → Except SysErr Bytes

/-- The numeric mode printed by sysLogger.Chmod: the nine permission
bits of the Go FileMode, plus octal 1000/2000/4000 when the sticky
(bit 20), setgid (bit 22) or setuid (bit 23) FileMode flags are set. -/
def chmodLogMode (mode : Nat) : Nat :=
  let m1 := mode &&& 511
  let m2 := if mode &&& 2 ^ 20 ≠ 0 then m1 ||| 512 else m1
  let m3 := if mode &&& 2 ^ 22 ≠ 0 then m2 ||| 1024 else m2
  if mode &&& 2 ^ 23 ≠ 0 then m3 ||| 2048 else m3

/-- One log line emitted by a sysLogger Infof call, with the format's
arguments. -/
inductive LogLine where
  | mkdirLine (path : Bytes)
  | rmLine (path : Bytes)
  | lnLine (oldname newname : Bytes)
  | chmodLine (m : Nat) (path : Bytes)
  | chownLine (uid gid : Nat) (path : Bytes)
  | createLine (path : Bytes)
  | execLine (args : List Bytes)
deriving DecidableEq

/-- sysLogger.Mkdir: log one line, then delegate. -/
def logMkdir {σ ω : Type} (sys : WrappedSys σ ω) (st : σ × List LogLine)
    (path : Bytes) (mode : Nat) : Except SysErr Unit × (σ × List LogLine) :=
  let r := sys.mkdir st.1 path mode
  (r.1, (r.2, st.2 ++ [.mkdirLine path]))

/-- sysLogger.Remove: log one line, then delegate. -/
def logRemove {σ ω : Type} (sys : WrappedSys σ ω) (st : σ × List LogLine)
    (path : Bytes) : Except SysErr Unit × (σ × List LogLine) :=
  let r := sys.remove st.1 path
  (r.1, (r.2, st.2 ++ [.rmLine path]))

/-- sysLogger.Symlink: log one line, then delegate. -/
def logSymlink {σ ω : Type} (sys : WrappedSys σ ω) (st : σ × List LogLine)
    (oldname newname : Bytes) : Except SysErr Unit × (σ × List LogLine) :=
  let r := sys.symlink st.1 oldname newname
  (r.1, (r.2, st.2 ++ [.lnLine oldname newname]))

/-- sysLogger.Chmod: log one line (with the printed numeric mode), then
delegate. -/
def logChmod {σ ω : Type} (sys : WrappedSys σ ω) (st : σ × List LogLine)
    (path : Bytes) (mode : Nat) : Except SysErr Unit × (σ × List LogLine) :=
  let r := sys.chmod st.1 path mode
  (r.1, (r.2, st.2 ++ [.chmodLine (chmodLogMode mode) path]))

/-- sysLogger.Chown: log one line, then delegate. -/
def logChown {σ ω : Type} (sys : WrappedSys σ ω) (st : σ × List LogLine)
    (path : Bytes) (uid gid : Nat) : Except SysErr Unit × (σ × List LogLine) :=
  let r := sys.chown st.1 path uid gid
  (r.1, (r.2, st.2 ++ [.chownLine uid gid path]))

/-- sysLogger.CreateFile: log one line, then delegate. -/
def logCreateFile {σ ω : Type} (sys : WrappedSys σ ω) (st : σ × List LogLine)
    (path : Bytes) (mode : Nat) : Except SysErr ω × (σ × List LogLine) :=
  let r := sys.createFile st.1 path mode
  (r.1, (r.2, st.2 ++ [.createLine path]))

/-- sysLogger.Run: log one line, then delegate. -/
def logRunCmd {σ ω : Type} (sys : WrappedSys σ ω) (st : σ × List LogLine)
    (args : List Bytes) : Except SysErr Bytes × (σ × List LogLine) :=
  let r := sys.runCmd st.1 args
  (r.1, (r.2, st.2 ++ [.execLine args]))

/-- sysLogger inherits every other method from the embedded system:
Lstat is delegated unchanged, with no log line. -/
def logLstat {σ ω : Type} (sys : WrappedSys σ ω) (st : σ × List LogLine)
    (path : Bytes) : Except SysErr FileInfo := sys.lstat st.1 path

/-- sysLogger inherits Readlink unchanged, with no log line. -/
def logReadlink {σ ω : Type} (sys : WrappedSys σ ω) (st : σ × List LogLine)
    (path : Bytes) : Except SysErr Bytes := sys.readlink st.1 path

/-- One call on a wrapped system. -/
inductive SysCall where
  | mkdir (path : Bytes) (mode : Nat)
  | remove (path : Bytes)
  | symlink (oldname newname : Bytes)
  | chmod (path : Bytes) (mode : Nat)
  | chown (path : Bytes) (uid gid : Nat)
  | createFile (path : Bytes) (mode : Nat)
  | runCmd (args : List Bytes)
  | lstat (path : Bytes)
  | readlink (path : Bytes)

/-- The log line a call produces, none for the read-only calls. -/
def lineOf : SysCall → Option LogLine
  | .mkdir p _ => some (.mkdirLine p)
  | .remove p => some (.rmLine p)
  | .symlink o n => some (.lnLine o n)
  | .chmod p m => some (.chmodLine (chmodLogMode m) p)
  | .chown p u g => some (.chownLine u g p)
  | .createFile p _ => some (.createLine p)
  | .runCmd a => some (.execLine a)
  | .lstat _ => none
  | .readlink _ => none

/-- The host state after one call on the bare wrapped system. -/
def plainStep {σ ω : Type} (sys : WrappedSys σ ω) (s : σ) : SysCall → σ
  | .mkdir p m => (sys.mkdir s p m).2
  | .remove p => (sys.remove s p).2
  | .symlink o n => (sys.symlink s o n).2
  | .chmod p m => (sys.chmod s p m).2
  | .chown p u g => (sys.chown s p u g).2
  | .createFile p m => (sys.createFile s p m).2
  | .runCmd a => (sys.runCmd s a).2
  | .lstat _ => s
  | .readlink _ => s

/-- The host state after a sequence of calls on the bare system. -/
def plainRun {σ ω : Type} (sys : WrappedSys σ ω) (s : σ) (ops : List SysCall) : σ :=
  ops.foldl (plainStep sys) s

/-- The host state and log after one call through sysLogger. -/
def loggedStep {σ ω : Type} (sys : WrappedSys σ ω) (st : σ × List LogLine) :
    SysCall → σ × List LogLine
  | .mkdir p m => (logMkdir sys st p m).2
  | .remove p => (logRemove sys st p).2
  | .symlink o n => (logSymlink sys st o n).2
  | .chmod p m => (logChmod sys st p m).2
  | .chown p u g => (logChown sys st p u g).2
  | .createFile p m => (logCreateFile sys st p m).2
  | .runCmd a => (logRunCmd sys st a).2
  | .lstat _ => st
  | .readlink _ => st

/-- The host state and log after a sequence of calls through sysLogger. -/
def loggedRun {σ ω : Type} (sys : WrappedSys σ ω) (st : σ × List LogLine)
    (ops : List SysCall) : σ × List LogLine :=
  ops.foldl (loggedStep sys) st

/-! ## The front end: exit status and error reporting (exec.go) -/

/-- The control flow of main in exec.go, as a function of the
decision-relevant inputs: the version flag, the number of positional
command-line arguments, the results of reading the catalog from stdin
(zero arguments) or of opening and reading the named catalog file (one
argument), and the result of execlib.Apply. logger.Fatal calls
logger.Error and exits with status 1; the usage branch for more than
one argument exits with status 2; falling off the end of main exits
with status 0. A failure of Close on the catalog file is only logged
and never changes the exit status, so it does not appear here. -/
def mainExitStatus (versionMode : Bool) (nargs : Nat)
    (stdinCatalog : Except SysErr Unit) (openRes : Except SysErr Unit)
    (fileCatalog : Except SysErr Unit) (applyRes : Except SysErr Unit) : Nat :=
  if versionMode then 0
  else
    match nargs with
    | 0 =>
      match stdinCatalog with
      | .error _ => 1
      | .ok () => match applyRes with | .error _ => 1 | .ok () => 0
    | 1 =>
      match openRes with
      | .error _ => 1
      | .ok () =>
        match fileCatalog with
        | .error _ => 1
        | .ok () => match applyRes with | .error _ => 1 | .ok () => 0
    | _ => 2

/-- The byte stream logger.Error writes to stderr, given the quiet
flag, the bytes of the writeLogHead output (program name, timestamp,
severity), the bytes of err.Error(), whether the error is an
execlib.Error, and its Output field. The message line gets a newline
appended unless it already ends in one; when not quiet and the error
carries non-empty output, the output bytes are written after the line
(the source's intermediate copy of the output with a newline appended
is immediately overwritten by the plain output and has no observable
effect), with one more newline on the line when the output does not end
in one. -/
def loggerErrorStream (quiet : Bool) (head msg : Bytes) (isExecError : Bool)
    (output : Bytes) : Bytes :=
  let line1 := head ++ msg
  let line2 := if line1.getLast? = some 10 then line1 else line1 ++ [10]
  if quiet = false ∧ isExecError = true ∧ output ≠ [] then
    (if output.getLast? ≠ some 10 then line2 ++ [10] else line2) ++ output
  else line2

/-! ## internal/depgraph, modelled from the spec

The depgraph package itself is not among the provided sources; only its
caller WriteScript (package shlib) is. The graph, its Ready/Done
accessors, and Mark are therefore modelled from the specification's
description of the dependency graph (spec sections 3 and 4.1); the
WriteScript driving loop follows the shlib source. -/

/-- Modelled from the spec: the node states of a dependency-graph node. -/
inductive NodeState where
  | waiting
  | ready
  | running
  | done
  | failed
  | skipped
deriving DecidableEq

/-- Modelled from the spec: a dependency-graph node holds the resource
id, its outstanding-dependency count, its reverse edges (the ids of the
nodes that depend on it), and its state. -/
structure GNode where
  id : Nat
  count : Nat
  revEdges : List Nat
  state : NodeState
deriving DecidableEq

/-- A dependency graph: its list of nodes. -/
abbrev Graph := List GNode

/-- Look up the node with the given id. -/
def findNode (g : Graph) (i : Nat) : Option GNode :=
  g.find? (fun n => n.id == i)

/-- The state of the node with the given id, if present. -/
def stateOf (g : Graph) (i : Nat) : Option NodeState :=
  (findNode g i).map GNode.state

/-- The outstanding-dependency count of the node with the given id. -/
def countOf (g : Graph) (i : Nat) : Option Nat :=
  (findNode g i).map GNode.count

/-- The Mark outcome: the resource applied cleanly or failed. -/
inductive Outcome where
  | ok
  | fail
deriving DecidableEq

/-- The per-node update of Mark(id, ok): the marked node becomes done;
a reverse-edge successor has its outstanding-dependency count
decremented and enters ready when the count reaches 0 while it was
waiting; other nodes are untouched. -/
def markOkNode (i : Nat) (re : List Nat) (m : GNode) : GNode :=
  if m.id = i then { m with state := .done }
  else if m.id ∈ re then
    { m with
      count := m.count - 1,
      state := if m.count - 1 = 0 ∧ m.state = .waiting then .ready else m.state }
  else m

/-- Modelled from the spec: Mark(id, ok) moves the node to done and, for
each reverse-edge successor, decrements the outstanding-dependency
count; a successor whose count reaches 0 while it was waiting enters
ready. -/
def markOk (g : Graph) (i : Nat) : Graph :=
  match findNode g i with
  | none => g
  | some n => g.map (markOkNode i n.revEdges)

/-- The reverse-edge successors of a node. -/
def succsOf (g : Graph) (i : Nat) : List Nat :=
  match findNode g i with
  | none => []
  | some n => n.revEdges

/-- One step of the reverse-edge closure. -/
def closeStep (g : Graph) (s : List Nat) : List Nat :=
  (s ++ s.flatMap (succsOf g)).dedup

/-- Iterate the closure step. -/
def closeRec : Nat → Graph → List Nat → List Nat
  | 0, _, s => s
  | n + 1, g, s => closeRec n g (closeStep g s)

/-- Modelled from the spec: the transitive descendants of a node along
reverse edges (the nodes that directly or indirectly depend on it). -/
def descendants (g : Graph) (i : Nat) : List Nat :=
  closeRec g.length g (succsOf g i)

/-- The per-node update of Mark(id, fail): the marked node becomes
failed, each transitive descendant becomes skipped. -/
def markFailNode (i : Nat) (ds : List Nat) (m : GNode) : GNode :=
  if m.id = i then { m with state := .failed }
  else if m.id ∈ ds then { m with state := .skipped }
  else m

/-- Modelled from the spec: Mark(id, fail) moves the node to failed and
marks every transitive descendant skipped. -/
def markFail (g : Graph) (i : Nat) : Graph :=
  g.map (markFailNode i (descendants g i))

/-- Modelled from the spec: Mark(id, outcome). -/
def Mark (g : Graph) (i : Nat) : Outcome → Graph
  | .ok => markOk g i
  | .fail => markFail g i

/-- Modelled from the spec: Done() — every node is in a terminal state
(done, failed or skipped). -/
def graphDone (g : Graph) : Bool :=
  g.all fun n => n.state == .done || n.state == .failed || n.state == .skipped

/-- Modelled from the spec: Ready() — the ids of the nodes currently in
the ready state. -/
def graphReady (g : Graph) : List Nat :=
  (g.filter fun n => n.state == .ready).map GNode.id

/-- Modelled from the spec: the cycle error that depgraph.New reports at
graph construction (its exact message is not among the provided
sources). -/
def cycleErrorMsg : String := "dependency cycle detected at construction"

/-- The stuck-graph internal error message of WriteScript, from the
shlib source. -/
def stuckErrorMsg : String := "graph not done, but has nothing to do"

/-- The error values WriteScript in package shlib can return: the cycle
error of depgraph.New at construction (spec-modelled, carrying the
participating ids), the internal stuck-graph error from errors.New, a
resource-emission error built by fmt.Errorf from the failing resource
id and the message of the error gen.resource returned, or the error the
errWriter persisted from a failed write on the underlying writer,
returned after the loop. -/
inductive ScriptErr where
  | cycleErr (ids : List Nat)
  | stuckErr
  | resourceErr (id : Nat) (msg : String)
  | writeErr (msg : String)
deriving DecidableEq

/-- The Go error string of each WriteScript error value. -/
def scriptErrMessage : ScriptErr → String
  | .cycleErr _ => cycleErrorMsg
  | .stuckErr => stuckErrorMsg
  | .resourceErr i msg => "resource ID=" ++ toString i ++ ": " ++ msg
  | .writeErr msg => msg

/-- The inner loop of WriteScript over one snapshot of ready ids: for
each id, gen.resource emits the resource — given the errWriter state
before the call, `emit id` yields the error gen.resource returns, if
any (a failed file-path read, an empty path, or an unsupported file
directive), together with the errWriter state after its writes — and a
returned error aborts WriteScript immediately with the formatted
resource error; otherwise the id is Marked ok and the next ready id of
the snapshot follows. -/
def emitAll (emit : Nat → Option String → Except String Unit × Option String) :
    List Nat → Graph → Option String → Except ScriptErr (Graph × Option String)
  | [], g, ew => .ok (g, ew)
  | i :: rest, g, ew =>
    match emit i ew with
    | (.error msg, _) => .error (.resourceErr i msg)
    | (.ok (), ew2) => emitAll emit rest (markOk g i) ew2

/-- The graph-driving loop of WriteScript in package shlib, with the
errWriter error state threaded through: the loop runs while no write
error is persisted and the graph is not done; it snapshots the ready
ids and returns the internal stuck-graph error if there are none;
otherwise it emits and Marks each ready resource through `emitAll`,
whose resource error, if any, is returned as WriteScript's result.
Leaving the loop yields the final graph and errWriter state. Fuel
bounds the recursion; running out of fuel exits the loop normally, so
an error result is always a genuine decision of the loop body. -/
def writeScriptLoop (emit : Nat → Option String → Except String Unit × Option String) :
    Nat → Graph → Option String → Except ScriptErr (Graph × Option String)
  | 0, g, ew => .ok (g, ew)
  | fuel + 1, g, ew =>
    if ew = none ∧ graphDone g = false then
      if graphReady g = [] then .error .stuckErr
      else
        match emitAll emit (graphReady g) g ew with
        | .error e => .error e
        | .ok (g2, ew2) => writeScriptLoop emit fuel g2 ew2
    else .ok (g, ew)

/-- WriteScript from package shlib after a successful depgraph.New: the
header lines leave the errWriter in state `header`; the driving loop
runs; then the trailer lines are written (`trailer` maps the errWriter
state across those writes) and the errWriter's persisted error, if any,
is returned; otherwise WriteScript succeeds. -/
def writeScriptRun (emit : Nat → Option String → Except String Unit × Option String)
    (trailer : Option String → Option String) (fuel : Nat) (g : Graph)
    (header : Option String) : Except ScriptErr Unit :=
  match writeScriptLoop emit fuel g header with
  | .error e => .error e
  | .ok (_, ew) =>
    match trailer ew with
    | some msg => .error (.writeErr msg)
    | none => .ok ()

/-- One completed iteration of the WriteScript loop: at entry no write
error is persisted and the graph is not done, the ready snapshot is
non-empty, and emitting every ready resource succeeds, yielding the
next entry state. -/
inductive LoopStep (emit : Nat → Option String → Except String Unit × Option String) :
    Graph × Option String → Graph × Option String → Prop where
  | step (g : Graph) (ew : Option String) (g2 : Graph) (ew2 : Option String)
      (hew : ew = none) (hd : graphDone g = false) (hr : graphReady g ≠ [])
      (hemit : emitAll emit (graphReady g) g ew = .ok (g2, ew2)) :
      LoopStep emit (g, ew) (g2, ew2)

/-! ## Theorems -/

theorem bashWordEval_cons_true (b : Nat) (rest : Bytes) :
    bashWordEval (b :: rest) true =
      if b == 39 then bashWordEval rest false
      else (bashWordEval rest true).map (b :: ·) := rfl

theorem bashWordEval_cons_false (b : Nat) (rest : Bytes) :
    bashWordEval (b :: rest) false =
      if b == 39 then bashWordEval rest true
      else if b == 92 then
        match rest with
        | [] => none
        | c :: rest2 => (bashWordEval rest2 false).map (c :: ·)
      else if b == 9 || b == 10 || b == 32 then none
      else (bashWordEval rest false).map (b :: ·) := by
  cases rest <;> rfl

theorem bashWordEval_quoted (s : Bytes) :
    bashWordEval (shellQuoteBody s ++ [39]) true = some s := by
  induction s with
  | nil => rfl
  | cons b rest ih =>
    by_cases hb : b = 39
    · subst hb
      simp [shellQuoteBody, bashWordEval_cons_true, bashWordEval_cons_false, ih]
    · have hb2 : (b == 39) = false := by simp [hb]
      simp [shellQuoteBody, hb2, bashWordEval_cons_true, ih]

theorem isShellSafe_spec {b : Nat} (h : isShellSafe b = true) :
    b ≠ 9 ∧ b ≠ 10 ∧ b ≠ 32 ∧ b ≠ 39 ∧ b ≠ 92 := by
  simp only [isShellSafe, Bool.or_eq_true, Bool.and_eq_true, decide_eq_true_eq,
    beq_iff_eq] at h
  omega

theorem bashWordEval_safe (s : Bytes) (h : s.all isShellSafe = true) :
    bashWordEval s false = some s := by
  induction s with
  | nil => rfl
  | cons b rest ih =>
    simp only [List.all_cons, Bool.and_eq_true] at h
    obtain ⟨h1, h2, h3, h4, h5⟩ := isShellSafe_spec h.1
    have e1 : (b == 39) = false := by simp [h4]
    have e2 : (b == 92) = false := by simp [h5]
    have e3 : (b == 9 || b == 10 || b == 32) = false := by simp [h1, h2, h3]
    simp [bashWordEval_cons_false, e1, e2, e3, ih h.2]

/-- C10: `shellQuote` returns `''` on the empty string, returns a string
of only shell-safe bytes unchanged, and otherwise wraps the string in
single quotes with each embedded quote escaped; in every case the
resulting bash word evaluates back to exactly the input bytes. -/
theorem shellQuote_roundTrip (s : Bytes) :
    shellQuote s =
      (if s = [] then [39, 39]
       else if s.all isShellSafe then s
       else 39 :: (shellQuoteBody s ++ [39])) ∧
    bashWordEval (shellQuote s) false = some s := by
  refine ⟨rfl, ?_⟩
  by_cases he : s = []
  · subst he; rfl
  · by_cases hs : s.all isShellSafe
    · rw [shellQuote, if_neg he, if_pos hs]
      exact bashWordEval_safe s hs
    · rw [shellQuote, if_neg he, if_neg hs]
      simp [bashWordEval_cons_false, bashWordEval_quoted s]

theorem lor_odd (a b : Nat) (h : a % 2 = 1) : (a ||| b) % 2 = 1 := by
  have h2 : a.testBit 0 = true := by simp [Nat.testBit_zero, h]
  have h3 : (a ||| b).testBit 0 = true := by rw [Nat.testBit_lor]; simp [h2]
  simpa [Nat.testBit_zero] using h3

theorem word32Bytes_mem_lt {b h : Nat} (hb : b ∈ word32Bytes h) : b < 256 := by
  simp only [word32Bytes, List.mem_cons, List.not_mem_nil, or_false] at hb
  rcases hb with rfl | rfl | rfl | rfl <;> omega

theorem sha1_getD_lt (m : Bytes) (i : Nat) : (sha1 m).getD i 0 < 256 := by
  have hmem : ∀ b ∈ sha1 m, b < 256 := by
    intro b hb
    simp only [sha1, List.mem_append] at hb
    rcases hb with ((((hb | hb) | hb) | hb) | hb) <;> exact word32Bytes_mem_lt hb
  by_cases hi : i < (sha1 m).length
  · rw [List.getD_eq_getElem _ _ hi]
    exact hmem _ (List.getElem_mem hi)
  · rw [List.getD_eq_default _ _ (by omega)]
    omega

theorem shiftLeft_lt_two_pow_64 {h k : Nat} (hh : h < 256) (hk : k ≤ 56) :
    h <<< k < 2 ^ 64 := by
  rw [Nat.shiftLeft_eq]
  calc h * 2 ^ k ≤ 255 * 2 ^ 56 :=
        Nat.mul_le_mul (by omega) (Nat.pow_le_pow_right (by norm_num) hk)
    _ < 2 ^ 64 := by norm_num

/-- C9: for every input string, luacat's `idHash` has its low bit set,
hence is odd and nonzero, and fits in 64 bits; consequently both the
resource ids and the dependency ids that `resourcefunc` derives from
names are nonzero, and a dependency given by the same string as a
resource's name resolves to exactly that resource's id. -/
theorem idHash_nonzero_and_deterministic (s : Bytes) :
    idHash s % 2 = 1 ∧ idHash s ≠ 0 ∧ idHash s < 2 ^ 64 ∧
    resourceIdOfName s ≠ 0 ∧ depIdOfName s ≠ 0 ∧
    depIdOfName s = resourceIdOfName s := by
  have hodd : idHash s % 2 = 1 := by
    simp only [idHash]
    apply lor_odd; apply lor_odd; apply lor_odd; apply lor_odd
    apply lor_odd; apply lor_odd; apply lor_odd; apply lor_odd
    rfl
  have hne : idHash s ≠ 0 := by
    intro h0
    rw [h0] at hodd
    simp at hodd
  have hlt : idHash s < 2 ^ 64 := by
    simp only [idHash]
    have k0 : (sha1 (idHashTag ++ s)).getD 0 0 < 2 ^ 64 :=
      Nat.lt_trans (sha1_getD_lt _ 0) (by norm_num)
    exact Nat.bitwise_lt_two_pow
      (Nat.bitwise_lt_two_pow (Nat.bitwise_lt_two_pow (Nat.bitwise_lt_two_pow
        (Nat.bitwise_lt_two_pow (Nat.bitwise_lt_two_pow (Nat.bitwise_lt_two_pow
          (Nat.bitwise_lt_two_pow (by norm_num) k0)
          (shiftLeft_lt_two_pow_64 (sha1_getD_lt _ 1) (by norm_num)))
          (shiftLeft_lt_two_pow_64 (sha1_getD_lt _ 2) (by norm_num)))
          (shiftLeft_lt_two_pow_64 (sha1_getD_lt _ 3) (by norm_num)))
          (shiftLeft_lt_two_pow_64 (sha1_getD_lt _ 4) (by norm_num)))
          (shiftLeft_lt_two_pow_64 (sha1_getD_lt _ 5) (by norm_num)))
          (shiftLeft_lt_two_pow_64 (sha1_getD_lt _ 6) (by norm_num)))
          (shiftLeft_lt_two_pow_64 (sha1_getD_lt _ 7) (by norm_num))
  exact ⟨hodd, hne, hlt, hne, hne, rfl⟩

theorem simCreateFile_snd {σ : Type} (L : LocalSys σ) (s : σ) (p : Bytes) (m : Nat) :
    (simCreateFile L s p m).2 = s := by
  unfold simCreateFile
  split <;> rfl

theorem simOpenFile_snd {σ : Type} (L : LocalSys σ) (s : σ) (p : Bytes) :
    (simOpenFile L s p).2 = s := by
  unfold simOpenFile
  split <;> rfl

theorem simStep_eq {σ : Type} (L : LocalSys σ) (s : σ) (op : SimOp) :
    simStep L s op = s := by
  cases op <;> try rfl
  · exact simCreateFile_snd ..
  · exact simOpenFile_snd ..

/-- C1: for every host, the simulated backend's Mkdir, Remove, Symlink,
Chmod, Chown and Run report success while leaving the host untouched,
its reads delegate to the live system, and no sequence of simulated
operations ever changes the host state. -/
theorem simulatedSystem_no_mutation {σ : Type} (L : LocalSys σ) (s : σ)
    (p q nm : Bytes) (m u g : Nat) (info : FileInfo) (args : List Bytes)
    (ops : List SimOp) :
    simMkdir s p m = (.ok (), s) ∧
    simRemove s p = (.ok (), s) ∧
    simSymlink s p q = (.ok (), s) ∧
    simChmod s p m = (.ok (), s) ∧
    simChown s p u g = (.ok (), s) ∧
    simRun s args = (.ok [], s) ∧
    simLstat L s p = (L.lstat s p, s) ∧
    simReadlink L s p = (L.readlink s p, s) ∧
    simOwnerInfo L s info = (L.ownerInfo info, s) ∧
    simLookupUser L s nm = (L.lookupUser nm, s) ∧
    simLookupGroup L s nm = (L.lookupGroup nm, s) ∧
    simApply L ops s = s := by
  refine ⟨rfl, rfl, rfl, rfl, rfl, rfl, rfl, rfl, rfl, rfl, rfl, ?_⟩
  induction ops generalizing s with
  | nil => rfl
  | cons op rest ih =>
    show simApply L rest (simStep L s op) = s
    rw [simStep_eq, ih]

/-- C4: the simulated backend's CreateFile fails with the
already-exists path error when lstat finds the path, propagates an
lstat error other than not-found, and otherwise returns the discarding
writer; the discarding writer's Write reports all bytes written while
keeping none, and the host state is never touched. -/
theorem simCreateFile_spec {σ : Type} (L : LocalSys σ) (s : σ)
    (path1 path2 path3 : Bytes) (mode : Nat) (info : FileInfo) (e : SysErr)
    (p : Bytes)
    (h1 : L.lstat s path1 = .ok info)
    (h2 : L.lstat s path2 = .error e) (he : e ≠ .notExist)
    (h3 : L.lstat s path3 = .error .notExist) :
    simCreateFile L s path1 mode = (.error (.exist openOpName path1), s) ∧
    simCreateFile L s path2 mode = (.error e, s) ∧
    simCreateFile L s path3 mode = (.ok .discard, s) ∧
    discardWrite p = (p.length, .ok ()) := by
  refine ⟨?_, ?_, ?_, rfl⟩
  · unfold simCreateFile
    rw [h1]
  · unfold simCreateFile
    rw [h2]
    cases e with
    | notExist => exact absurd rfl he
    | exist o pa => rfl
    | canceled => rfl
    | other c => rfl
  · unfold simCreateFile
    rw [h3]

/-- Witness for C4 at the concrete fixture host. -/
theorem simCreateFile_spec_witness :
    simCreateFile fixtureLocal () [1] 420 = (.error (.exist openOpName [1]), ()) ∧
    simCreateFile fixtureLocal () [2] 420 = (.error (.other 5), ()) ∧
    simCreateFile fixtureLocal () [3] 420 = (.ok .discard, ()) := by
  have h := simCreateFile_spec fixtureLocal () [1] [2] [3] 420 ⟨420, 0, 0, 0⟩
    (.other 5) [7] rfl rfl (by decide) rfl
  exact ⟨h.1, h.2.1, h.2.2.1⟩

theorem roStep_content (f : ReadOnlyFile) (op : FileOp) :
    (roStep f op).content = f.content := by
  cases op with
  | read n =>
    show (roRead f n).2.content = f.content
    unfold roRead
    split <;> rfl
  | write p => rfl
  | seek o w =>
    show (roSeek f o w).2.content = f.content
    unfold roSeek
    split <;> rfl
  | truncate n => rfl

theorem roStep_wrote_mono (f : ReadOnlyFile) (op : FileOp) (h : f.wrote = true) :
    (roStep f op).wrote = true := by
  cases op with
  | read n =>
    show (roRead f n).2.wrote = true
    unfold roRead
    split <;> exact h
  | write p => rfl
  | seek o w =>
    show (roSeek f o w).2.wrote = true
    unfold roSeek
    split <;> exact h
  | truncate n => rfl

theorem roStep_wrote_of_writeOp (f : ReadOnlyFile) (op : FileOp)
    (h : isWriteOp op = true) : (roStep f op).wrote = true := by
  cases op with
  | read n => simp [isWriteOp] at h
  | write p => rfl
  | seek o w => simp [isWriteOp] at h
  | truncate n => rfl

theorem roRun_content (f : ReadOnlyFile) (ops : List FileOp) :
    (roRun f ops).content = f.content := by
  induction ops generalizing f with
  | nil => rfl
  | cons op rest ih =>
    show (roRun (roStep f op) rest).content = f.content
    rw [ih, roStep_content]

theorem roRun_wrote_mono (f : ReadOnlyFile) (ops : List FileOp)
    (h : f.wrote = true) : (roRun f ops).wrote = true := by
  induction ops generalizing f with
  | nil => exact h
  | cons op rest ih =>
    exact ih _ (roStep_wrote_mono f op h)

theorem roRun_wrote (f : ReadOnlyFile) (ops : List FileOp)
    (h : ops.any isWriteOp = true) : (roRun f ops).wrote = true := by
  induction ops generalizing f with
  | nil => simp at h
  | cons op rest ih =>
    show (roRun (roStep f op) rest).wrote = true
    rcases (List.any_cons ▸ h : (isWriteOp op || rest.any isWriteOp) = true) with hh
    rcases Bool.or_eq_true_iff.mp hh with h1 | h2
    · exact roRun_wrote_mono _ rest (roStep_wrote_of_writeOp f op h1)
    · exact ih _ h2

/-- C5: on a simulated file handle, Write and Truncate always report
success and never change the underlying file bytes; no sequence of
handle operations changes them; and after any sequence containing a
Write or Truncate, a Read or a Seek on the handle returns an error. -/
theorem readOnlyFile_spec (f : ReadOnlyFile) (ops : List FileOp) (p : Bytes)
    (size n : Nat) (off : Int) (wh : Nat) (hops : ops.any isWriteOp = true) :
    (roWrite f p).1 = (p.length, .ok ()) ∧
    ((roWrite f p).2).content = f.content ∧
    (roTruncate f size).1 = .ok () ∧
    ((roTruncate f size).2).content = f.content ∧
    (roRun f ops).content = f.content ∧
    (roRead (roRun f ops) n).1 = .error "read after simulated write" ∧
    (roSeek (roRun f ops) off wh).1 = .error "seek after simulated write" := by
  have hw := roRun_wrote f ops hops
  refine ⟨rfl, rfl, rfl, rfl, roRun_content f ops, ?_, ?_⟩
  · unfold roRead
    rw [if_pos hw]
  · unfold roSeek
    rw [if_pos hw]

/-- Witness for C5: a concrete handle, written then read. -/
theorem readOnlyFile_spec_witness :
    (roRead (roRun ⟨[1, 2, 3], 0, false⟩ [.write [7]]) 1).1 =
      .error "read after simulated write" :=
  (readOnlyFile_spec ⟨[1, 2, 3], 0, false⟩ [.write [7]] [7] 0 1 0 0
    (by decide)).2.2.2.2.2.1

theorem loggedStep_eq {σ ω : Type} (sys : WrappedSys σ ω) (s : σ)
    (log : List LogLine) (op : SysCall) :
    loggedStep sys (s, log) op =
      (plainStep sys s op, log ++ (lineOf op).toList) := by
  cases op <;> simp [loggedStep, plainStep, lineOf, logMkdir, logRemove,
    logSymlink, logChmod, logChown, logCreateFile, logRunCmd]

/-- C6: sysLogger is observationally equivalent to the wrapped system
apart from its log: each mutation returns exactly the underlying
system's result for the same call after appending exactly one log line,
the read-only calls are delegated unchanged with no log line, and over
any call sequence the wrapped host state evolves exactly as without the
logger while the log receives precisely one line per mutation, in call
order. -/
theorem sysLogger_equiv {σ ω : Type} (sys : WrappedSys σ ω) (s : σ)
    (log : List LogLine) (ops : List SysCall) (p q : Bytes) (m u g : Nat)
    (args : List Bytes) :
    logMkdir sys (s, log) p m =
      ((sys.mkdir s p m).1, ((sys.mkdir s p m).2, log ++ [.mkdirLine p])) ∧
    logRemove sys (s, log) p =
      ((sys.remove s p).1, ((sys.remove s p).2, log ++ [.rmLine p])) ∧
    logSymlink sys (s, log) p q =
      ((sys.symlink s p q).1, ((sys.symlink s p q).2, log ++ [.lnLine p q])) ∧
    logChmod sys (s, log) p m =
      ((sys.chmod s p m).1,
        ((sys.chmod s p m).2, log ++ [.chmodLine (chmodLogMode m) p])) ∧
    logChown sys (s, log) p u g =
      ((sys.chown s p u g).1,
        ((sys.chown s p u g).2, log ++ [.chownLine u g p])) ∧
    logCreateFile sys (s, log) p m =
      ((sys.createFile s p m).1,
        ((sys.createFile s p m).2, log ++ [.createLine p])) ∧
    logRunCmd sys (s, log) args =
      ((sys.runCmd s args).1, ((sys.runCmd s args).2, log ++ [.execLine args])) ∧
    logLstat sys (s, log) p = sys.lstat s p ∧
    logReadlink sys (s, log) p = sys.readlink s p ∧
    loggedRun sys (s, log) ops =
      (plainRun sys s ops, log ++ ops.filterMap lineOf) := by
  refine ⟨rfl, rfl, rfl, rfl, rfl, rfl, rfl, rfl, rfl, ?_⟩
  induction ops generalizing s log with
  | nil => simp [loggedRun, plainRun]
  | cons op rest ih =>
    show loggedRun sys (loggedStep sys (s, log) op) rest = _
    rw [loggedStep_eq, ih]
    cases hl : lineOf op <;>
      simp [plainRun, List.filterMap_cons, hl, List.foldl_cons]

/-- C7: the front end exits with status 0 when the catalog is read and
applied successfully (from stdin or from a file), with status 1 on any
applier error and on any catalog read or open failure, and with status
2 when more than one command-line argument is given. -/
theorem mainExitStatus_spec (nargs : Nat) (e : SysErr)
    (sc oc fc ar : Except SysErr Unit) :
    mainExitStatus false 0 (.ok ()) oc fc (.ok ()) = 0 ∧
    mainExitStatus false 1 sc (.ok ()) (.ok ()) (.ok ()) = 0 ∧
    mainExitStatus false 0 (.error e) oc fc ar = 1 ∧
    mainExitStatus false 0 (.ok ()) oc fc (.error e) = 1 ∧
    mainExitStatus false 1 sc (.error e) fc ar = 1 ∧
    mainExitStatus false 1 sc (.ok ()) (.error e) ar = 1 ∧
    mainExitStatus false 1 sc (.ok ()) (.ok ()) (.error e) = 1 ∧
    mainExitStatus false (nargs + 2) sc oc fc ar = 2 :=
  ⟨rfl, rfl, rfl, rfl, rfl, rfl, rfl, rfl⟩

/-- C8: when the non-quiet logger reports an execlib error with
non-empty captured output, the stderr stream is exactly a message line
ending in a newline followed by the output bytes, byte for byte
unmodified. -/
theorem loggerError_output_verbatim (head msg output : Bytes)
    (h : output ≠ []) :
    ∃ line, loggerErrorStream false head msg true output = line ++ output ∧
      line.getLast? = some 10 := by
  unfold loggerErrorStream
  rw [if_pos ⟨rfl, rfl, h⟩]
  by_cases ho : output.getLast? = some 10
  · rw [if_neg (by simp [ho])]
    by_cases hl : (head ++ msg).getLast? = some 10
    · exact ⟨head ++ msg, by rw [if_pos hl], hl⟩
    · exact ⟨head ++ msg ++ [10], by rw [if_neg hl], by simp⟩
  · rw [if_pos ho]
    by_cases hl : (head ++ msg).getLast? = some 10
    · exact ⟨head ++ msg ++ [10], by rw [if_pos hl], by simp⟩
    · exact ⟨head ++ msg ++ [10] ++ [10], by rw [if_neg hl], by simp⟩

/-- Witness for C8: a concrete head, message and output. -/
theorem loggerError_output_verbatim_witness :
    ∃ line, loggerErrorStream false [104, 58, 32] [101, 114, 114] true [111, 117, 116] =
      line ++ [111, 117, 116] ∧ line.getLast? = some 10 :=
  loggerError_output_verbatim [104, 58, 32] [101, 114, 114] [111, 117, 116]
    (by decide)

theorem markOkNode_id (i : Nat) (re : List Nat) (m : GNode) :
    (markOkNode i re m).id = m.id := by
  unfold markOkNode
  split
  · rfl
  · split <;> rfl

theorem markFailNode_id (i : Nat) (ds : List Nat) (m : GNode) :
    (markFailNode i ds m).id = m.id := by
  unfold markFailNode
  split
  · rfl
  · split <;> rfl

theorem findNode_map (g : Graph) (f : GNode → GNode)
    (hf : ∀ n, (f n).id = n.id) (i : Nat) :
    findNode (g.map f) i = (findNode g i).map f := by
  induction g with
  | nil => rfl
  | cons n rest ih =>
    unfold findNode at *
    rw [List.map_cons, List.find?_cons, List.find?_cons]
    have hfn : ((f n).id == i) = (n.id == i) := by rw [hf n]
    rw [hfn]
    cases h : (n.id == i)
    · simpa using ih
    · rfl

theorem findNode_id {g : Graph} {i : Nat} {n : GNode}
    (h : findNode g i = some n) : n.id = i := by
  have h2 := List.find?_some h
  simpa using h2

/-- C2 (spec-modelled): Mark takes a resource id and an outcome in
ok/fail; on ok it moves the running node to done, decrements each
reverse-edge successor's outstanding-dependency count, and a successor
whose count reaches 0 while it was waiting becomes ready; on fail it
moves the node to failed and marks every transitive descendant present
in the graph skipped. -/
theorem Mark_spec (g : Graph) (i j d : Nat) (n mj md : GNode)
    (hn : findNode g i = some n) (hrun : n.state = .running)
    (hj : findNode g j = some mj) (hji : j ≠ i) (hjr : j ∈ n.revEdges)
    (hdm : findNode g d = some md) (hdd : d ∈ descendants g i) (hdi : d ≠ i) :
    stateOf (Mark g i .ok) i = some .done ∧
    countOf (Mark g i .ok) j = some (mj.count - 1) ∧
    (mj.count = 1 → mj.state = .waiting →
      stateOf (Mark g i .ok) j = some .ready) ∧
    stateOf (Mark g i .fail) i = some .failed ∧
    stateOf (Mark g i .fail) d = some .skipped := by
  have hid : n.id = i := findNode_id hn
  have hjd : mj.id = j := findNode_id hj
  have hmd : md.id = d := findNode_id hdm
  have hok : Mark g i .ok = g.map (markOkNode i n.revEdges) := by
    show markOk g i = _
    unfold markOk
    rw [hn]
  have hfail : Mark g i .fail = g.map (markFailNode i (descendants g i)) := rfl
  refine ⟨?_, ?_, ?_, ?_, ?_⟩
  · rw [hok]
    unfold stateOf
    rw [findNode_map g _ (markOkNode_id i n.revEdges) i, hn]
    simp [markOkNode, hid]
  · rw [hok]
    unfold countOf
    rw [findNode_map g _ (markOkNode_id i n.revEdges) j, hj]
    simp [markOkNode, hjd, hji, hjr]
  · intro hc hw
    rw [hok]
    unfold stateOf
    rw [findNode_map g _ (markOkNode_id i n.revEdges) j, hj]
    simp [markOkNode, hjd, hji, hjr, hc, hw]
  · rw [hfail]
    unfold stateOf
    rw [findNode_map g _ (markFailNode_id i (descendants g i)) i, hn]
    simp [markFailNode, hid]
  · rw [hfail]
    unfold stateOf
    rw [findNode_map g _ (markFailNode_id i (descendants g i)) d, hdm]
    simp [markFailNode, hmd, hdi, hdd]

/-- Witness for C2: a two-node graph, node 1 running with successor
node 2 waiting on one outstanding dependency. -/
theorem Mark_spec_witness :
    stateOf (Mark [⟨1, 0, [2], .running⟩, ⟨2, 1, [], .waiting⟩] 1 .ok) 2 =
      some .ready ∧
    stateOf (Mark [⟨1, 0, [2], .running⟩, ⟨2, 1, [], .waiting⟩] 1 .fail) 2 =
      some .skipped := by
  have h := Mark_spec [⟨1, 0, [2], .running⟩, ⟨2, 1, [], .waiting⟩] 1 2 2
    ⟨1, 0, [2], .running⟩ ⟨2, 1, [], .waiting⟩ ⟨2, 1, [], .waiting⟩
    rfl rfl rfl (by decide) (by decide) rfl (by decide) (by decide)
  exact ⟨h.2.2.1 rfl rfl, h.2.2.2.2⟩

theorem writeScriptLoop_succ
    (emit : Nat → Option String → Except String Unit × Option String)
    (fuel : Nat) (g : Graph) (ew : Option String) :
    writeScriptLoop emit (fuel + 1) g ew =
      if ew = none ∧ graphDone g = false then
        if graphReady g = [] then .error .stuckErr
        else
          match emitAll emit (graphReady g) g ew with
          | .error e => .error e
          | .ok (g2, ew2) => writeScriptLoop emit fuel g2 ew2
      else .ok (g, ew) := rfl

theorem emitAll_error_shape
    (emit : Nat → Option String → Except String Unit × Option String)
    (ids : List Nat) (g : Graph) (ew : Option String) (e : ScriptErr)
    (h : emitAll emit ids g ew = .error e) :
    ∃ i msg, e = ScriptErr.resourceErr i msg := by
  induction ids generalizing g ew with
  | nil => simp [emitAll] at h
  | cons i rest ih =>
    unfold emitAll at h
    split at h
    · exact ⟨_, _, (Except.error.inj h).symm⟩
    · exact ih _ _ h

/-- C3: whenever the graph is not done but nothing is ready, the
WriteScript driving loop stops with the internal stuck-graph error
instead of proceeding; that error is distinct from the cycle error of
graph construction; and the stuck-graph error is the only error the
loop itself ever returns, so an error return happens exactly when some
iteration finds the graph not done with an empty ready set. -/
theorem writeScriptLoop_stuck
    (emit : Nat → Option String → Except String Unit × Option String)
    (trailer : Option String → Option String) (fuel : Nat) (g : Graph)
    (hd : graphDone g = false) (hr : graphReady g = []) :
    writeScriptLoop emit (fuel + 1) g none = .error .stuckErr ∧
    writeScriptRun emit trailer (fuel + 1) g none = .error .stuckErr ∧
    (∀ ids, ScriptErr.stuckErr ≠ ScriptErr.cycleErr ids) ∧
    scriptErrMessage .stuckErr ≠ cycleErrorMsg ∧
    (∀ f2 : Nat, ∀ g2 : Graph, ∀ ew2 : Option String,
      writeScriptLoop emit f2 g2 ew2 = .error .stuckErr →
      ∃ g3, Relation.ReflTransGen (LoopStep emit) (g2, ew2) (g3, none) ∧
        graphDone g3 = false ∧ graphReady g3 = []) := by
  have hloop : writeScriptLoop emit (fuel + 1) g none = .error .stuckErr := by
    rw [writeScriptLoop_succ, if_pos ⟨rfl, hd⟩, if_pos hr]
  refine ⟨hloop, ?_, ?_, by decide, ?_⟩
  · unfold writeScriptRun
    rw [hloop]
  · intro ids h
    exact ScriptErr.noConfusion h
  · intro f2
    induction f2 with
    | zero =>
      intro g2 ew2 h
      simp [writeScriptLoop] at h
    | succ f ih =>
      intro g2 ew2 h
      rw [writeScriptLoop_succ] at h
      by_cases hc : ew2 = none ∧ graphDone g2 = false
      · rw [if_pos hc] at h
        by_cases hr2 : graphReady g2 = []
        · rw [if_pos hr2] at h
          refine ⟨g2, ?_, hc.2, hr2⟩
          rw [hc.1]
        · rw [if_neg hr2] at h
          rcases hem : emitAll emit (graphReady g2) g2 ew2 with e | ⟨g4, ew4⟩
          · rw [hem] at h
            obtain ⟨i, msg, rfl⟩ := emitAll_error_shape emit _ _ _ _ hem
            simp at h
          · rw [hem] at h
            have h2 : writeScriptLoop emit f g4 ew4 = .error .stuckErr := h
            obtain ⟨g3, hreach, hd3, hr3⟩ := ih g4 ew4 h2
            refine ⟨g3, ?_, hd3, hr3⟩
            exact Relation.ReflTransGen.head
              (LoopStep.step g2 ew2 g4 ew4 hc.1 hc.2 hr2 hem) hreach
      · rw [if_neg hc] at h
        cases h

/-- Witness for C3: a concrete stuck graph, one waiting node with an
outstanding dependency and nothing ready, driven with an emitter that
always succeeds and never sets a write error. -/
theorem writeScriptLoop_stuck_witness :
    writeScriptLoop (fun _ ew => (.ok (), ew)) 1 [⟨1, 1, [], .waiting⟩] none =
      .error .stuckErr ∧
    scriptErrMessage .stuckErr ≠ cycleErrorMsg :=
  ⟨(writeScriptLoop_stuck (fun _ ew => (.ok (), ew)) (fun ew => ew) 0
      [⟨1, 1, [], .waiting⟩] rfl rfl).1,
   (writeScriptLoop_stuck (fun _ ew => (.ok (), ew)) (fun ew => ew) 0
      [⟨1, 1, [], .waiting⟩] rfl rfl).2.2.2.1⟩
